import Mathlib

/-!
Verification development for the `algo` trading repository.

The definitions below are a shallow embedding of the Python sources under
`trading_core/`: prices are modelled as rationals, machine integers as `Int`,
Python `None`/absent dictionary keys as `Option`, and the `positions.json`
dictionary as an association list keyed by symbol.  Stateful methods become
explicit state-passing functions.  Each definition mirrors one Python
function; theorems about the frozen specification claims follow at the end.
-/

namespace Algo

/-- Python truthiness of an optional number: `None` and `0` are falsy. -/
def truthyQ : Option ℚ → Bool
  | some v => v ≠ 0
  | none => false

/-- Python truthiness of an optional string: `None` and `""` are falsy. -/
def truthyS : Option String → Bool
  | some s => s ≠ ""
  | none => false

/-- Python `round(x, 2)` on an exact value: round half to even at the second
decimal place (banker's rounding), as CPython does. -/
def round2 (q : ℚ) : ℚ :=
  let n : ℚ := q * 100
  let f : ℤ := n.floor
  let r : ℚ := n - f
  let i : ℤ :=
    if r < 1/2 then f
    else if 1/2 < r then f + 1
    else if f % 2 = 0 then f else f + 1
  (i : ℚ) / 100

/-- One entry of `OrderManager.positions`
(`execution.py`, created at line 130: quantity, strategy, entry_price). -/
structure Position where
  quantity : ℤ
  strategy : Option String
  entry_price : Option ℚ
deriving DecidableEq, Repr

/-- One record appended to the trade history (`execution.py` lines 111-116). -/
structure TradeRecord where
  symbol : String
  strategy : String
  action : String
  price : Option ℚ
  quantity : ℤ
  pnl : ℚ
  reason : String
deriving DecidableEq, Repr

/-- The mutable state of an `OrderManager`: the positions dictionary and the
trade-history list (file persistence is modelled as the in-memory values). -/
structure OMState where
  positions : List (String × Position)
  history : List TradeRecord
deriving DecidableEq, Repr

/-- Dictionary lookup `self.positions.get(symbol)`. -/
def lookupPos : List (String × Position) → String → Option Position
  | [], _ => none
  | (k, p) :: rest, sym => if k = sym then some p else lookupPos rest sym

/-- Dictionary deletion `del self.positions[symbol]` (execution.py line 126). -/
def removePos (l : List (String × Position)) (sym : String) :
    List (String × Position) :=
  l.filter (fun kp => kp.1 ≠ sym)

/-- In-place update `self.positions[symbol]['quantity'] = new_qty`
(execution.py line 134). -/
def updateQty (l : List (String × Position)) (sym : String) (q : ℤ) :
    List (String × Position) :=
  l.map (fun kp => if kp.1 = sym then (kp.1, { kp.2 with quantity := q }) else kp)

/-- `OrderManager.get_open_position` (execution.py lines 76-78). -/
def get_open_position (st : OMState) (sym : String) : Option Position :=
  lookupPos st.positions sym

/-- `OrderManager.get_position` (execution.py lines 71-74). -/
def get_position (st : OMState) (sym : String) : ℤ :=
  match lookupPos st.positions sym with
  | some p => p.quantity
  | none => 0

/-- The P&L computed by `place_order` (execution.py lines 95-103): only when
`exit_reason`, `entry_price` and `price` are all truthy, and only for
`side = -1` (long exit) or `side = 1` (short exit). -/
def orderPnl (qty side : ℤ) (entry_price : Option ℚ) (exit_reason : Option String)
    (price : Option ℚ) : ℚ :=
  if truthyS exit_reason ∧ truthyQ entry_price ∧ truthyQ price then
    let e := entry_price.getD 0
    let p := price.getD 0
    if side = -1 then (p - e) * qty
    else if side = 1 then (e - p) * qty
    else 0
  else 0

/-- `OrderManager.place_order` (execution.py lines 80-138), restricted to its
state effects: append one trade record, then update the positions dictionary.
The network call at the end is commented out in the source (mock mode). -/
def place_order (st : OMState) (symbol : String) (qty side : ℤ)
    (strategy_name : Option String) (entry_price : Option ℚ)
    (exit_reason : Option String) (price : Option ℚ) : OMState :=
  let pnl := orderPnl qty side entry_price exit_reason price
  let record : TradeRecord :=
    { symbol := symbol
      strategy := strategy_name.getD "N/A"
      action := if side = 1 then "BUY" else "SELL"
      price := price
      quantity := qty
      pnl := round2 pnl
      reason := exit_reason.getD "Entry" }
  let history := st.history ++ [record]
  let current_position_details := get_open_position st symbol
  let current_qty := get_position st symbol
  let new_qty := current_qty + qty * side
  let positions :=
    if new_qty = 0 then
      removePos st.positions symbol
    else
      match current_position_details with
      | none =>
        st.positions ++ [(symbol, { quantity := new_qty, strategy := strategy_name,
                                    entry_price := price })]
      | some _ => updateQty st.positions symbol new_qty
  { positions := positions, history := history }

/-- The empty ledger: no positions file found (execution.py lines 32-33). -/
def emptyOM : OMState := { positions := [], history := [] }

/-- The arguments of one `place_order` call relevant to the ledger. -/
structure OrderCall where
  qty : ℤ
  side : ℤ
  strategy_name : Option String
  entry_price : Option ℚ
  exit_reason : Option String
  price : Option ℚ
deriving DecidableEq, Repr

/-- Run a sequence of `place_order` calls on a single symbol. -/
def runOrders (sym : String) (st : OMState) : List OrderCall → OMState
  | [] => st
  | c :: rest =>
      runOrders sym (place_order st sym c.qty c.side c.strategy_name
        c.entry_price c.exit_reason c.price) rest

/-- The running signed sum of `quantity * side` over a call sequence. -/
def signedSum (calls : List OrderCall) : ℤ :=
  (calls.map (fun c => c.qty * c.side)).sum

/-! ### Strategy base class (`strategies/base_strategy.py`) -/

/-- The constructor parameters shared by every `Strategy`
(base_strategy.py lines 15-25). `sizing_value` is coerced with `int(...)`. -/
structure StratCfg where
  symbol : String
  trade_type : String
  sizing_type : String
  sizing_value : ℤ
deriving DecidableEq, Repr

/-- `self.product_type` (base_strategy.py line 20). -/
def productType (cfg : StratCfg) : String :=
  if cfg.trade_type = "Positional" then "CNC" else "INTRADAY"

/-- `Strategy._calculate_quantity` (base_strategy.py lines 45-59). -/
def calculate_quantity (cfg : StratCfg) (price : ℚ) : ℤ :=
  if price ≤ 0 then 0
  else if cfg.sizing_type = "Quantity" then cfg.sizing_value
  else if cfg.sizing_type = "Amount" then
    if (cfg.sizing_value : ℚ) < price then 0
    else ((cfg.sizing_value : ℚ) / price).floor
  else 0

/-! ### Live-simulation pacing (`engine.py` lines 244-270) -/

/-- The per-tick simulated delay in seconds (engine.py lines 246-257):
the historical gap, replaced by 1 second when it exceeds 300 seconds,
then divided by the speed multiplier (0 when `speed <= 0`). -/
def simDelay (gapSec speed : ℚ) : ℚ :=
  let d : ℚ := if gapSec > 300 then 1 else gapSec
  if speed ≤ 0 then 0 else d / speed

/-- `sleep_duration = sim_delay - real_time_elapsed` (engine.py line 262),
the time the loop actually sleeps (when positive). -/
def sleepDuration (gapSec speed elapsed : ℚ) : ℚ :=
  simDelay gapSec speed - elapsed

/-- The chunked sleep loop (engine.py lines 266-270) in milliseconds:
each chunk is `min(0.1 s, remaining)` and the stop flag is polled between
chunks.  Returns the list of chunk lengths for a total duration of `n` ms. -/
def sleepChunksMs : ℕ → List ℕ
  | 0 => []
  | n + 1 =>
      let c := min 100 (n + 1)
      c :: sleepChunksMs (n + 1 - c)

/-! ### Live tick dispatcher (`data_handler.py` lines 24-36) -/

/-- A tick message: the dictionary keys the dispatcher and strategies read.
`none` models an absent key (or a `None` value). -/
structure Msg where
  symbol : Option String
  ltp : Option ℚ
  close : Option ℚ
deriving DecidableEq, Repr

/-- `msg.get("ltp") or msg.get("close")` (data_handler.py line 29): Python
`or` falls through on a falsy left operand, so an absent or zero `ltp`
yields the `close` value. -/
def dispatchPrice (m : Msg) : Option ℚ :=
  match m.ltp with
  | some v => if v = 0 then m.close else some v
  | none => m.close

/-- `data.get('ltp', data.get('close'))` as the strategies read the price
(e.g. sma_crossover.py line 23): `dict.get` with a default returns the
`ltp` value whenever the key is present, even when it is `0`. -/
def stratPrice (m : Msg) : Option ℚ :=
  match m.ltp with
  | some v => some v
  | none => m.close

/-- A strategy's `on_tick` as the dispatcher sees it: it may raise
(`Except.error`) or return the mutated ledger. -/
def StratF : Type := ℕ → Msg → OMState → Except String OMState

/-- `symbol in self.active_strategies` plus the instance lookup. -/
def lookupStrat : List (String × StratF) → String → Option StratF
  | [], _ => none
  | (k, f) :: rest, sym => if k = sym then some f else lookupStrat rest sym

/-- The log line of the `except` clause (data_handler.py line 36). -/
def errLog (sym err : String) : String :=
  "Error processing tick for " ++ sym ++ ": " ++ err

/-- `LiveDataHandler._process_tick` (data_handler.py lines 24-36).
Returns the new ledger, whether `strategy.on_tick` was invoked, and the
log lines emitted.  An exception from `on_tick` is caught and logged; the
function itself never raises. -/
def process_tick (active : List (String × StratF)) (st : OMState) (ts : ℕ)
    (m : Msg) : OMState × Bool × List String :=
  let price := dispatchPrice m
  match m.symbol with
  | none => (st, false, [])
  | some sym =>
      if sym = "" then (st, false, [])
      else
        match lookupStrat active sym with
        | none => (st, false, [])
        | some f =>
            if price.isSome then
              match f ts m st with
              | Except.ok st' => (st', true, [])
              | Except.error e => (st, true, [errLog sym e])
            else (st, false, [])

/-- Sequential processing of a batch of submitted ticks: the state threads
through, the logs accumulate. -/
def processTicks (active : List (String × StratF)) (st : OMState) :
    List (ℕ × Msg) → OMState × List String
  | [] => (st, [])
  | (ts, m) :: rest =>
      let r := process_tick active st ts m
      let rr := processTicks active r.1 rest
      (rr.1, r.2.2 ++ rr.2)

/-- A strategy stub that always raises, for exercising the dispatcher's
exception handler. -/
def throwStrat : StratF := fun _ _ _ => Except.error "boom"

/-- A strategy stub that never acts. -/
def okStrat : StratF := fun _ _ st => Except.ok st

/-! ### `SMACrossoverStrategy` construction (`strategies/sma_crossover.py`) -/

/-- The instance attributes of `SMACrossoverStrategy` (sma_crossover.py
lines 12-17).  Before the subclass body runs, the attributes are modelled
as their neutral values (`[]` / `none`). -/
structure SMAState where
  short_window : ℕ
  long_window : ℕ
  prices : List ℚ
  short_sma : Option ℚ
  long_sma : Option ℚ
  entry_price : Option ℚ
deriving DecidableEq, Repr

/-- `SMACrossoverStrategy._restore_state_from_position`
(sma_crossover.py lines 19-20). -/
def smaRestore (st : SMAState) (p : Position) : SMAState :=
  { st with entry_price := p.entry_price }

/-- `Strategy._initialize_state` (base_strategy.py lines 27-35) specialised
to the SMA crossover strategy, `STRATEGY_NAME = "SMA Crossover"`. -/
def smaInitState (om : OMState) (sym : String) (st : SMAState) : SMAState :=
  match get_open_position om sym with
  | some p => if p.strategy = some "SMA Crossover" then smaRestore st p else st
  | none => st

/-- Constructing an `SMACrossoverStrategy` (sma_crossover.py lines 8-17):
`super().__init__` runs `_initialize_state` (base_strategy.py line 25)
*before* the subclass body assigns `self.prices = []`, `self.short_sma =
None`, `self.long_sma = None`, `self.entry_price = None` (lines 12-17). -/
def smaConstruct (om : OMState) (sym : String) (sw lw : ℕ) : SMAState :=
  let st0 : SMAState :=
    { short_window := sw, long_window := lw, prices := [],
      short_sma := none, long_sma := none, entry_price := none }
  let st1 := smaInitState om sym st0
  { st1 with prices := [], short_sma := none, long_sma := none,
             entry_price := none }

/-! ### `FifteenMinBreakdownStrategy` (`strategies/1%_down(next_candle).py`) -/

/-- The instance attributes of `FifteenMinBreakdownStrategy`.  `entry_price`
(no underscore) is the attribute created only by
`_restore_state_from_position` (line 23); the trading logic reads
`_entry_price` (lines 20, 86, 90-92).  The `second_candle_*` attributes do
not exist until first assigned (`hasattr` check at line 118), modelled by
`none`.  Timestamps are seconds since midnight. -/
structure BDState where
  first_candle_start : Option ℕ
  first_candle_high : Option ℚ
  first_candle_low : Option ℚ
  first_candle_close : Option ℚ
  second_candle_start : Option ℕ
  second_candle_high : Option ℚ
  second_candle_low : Option ℚ
  second_candle_close : Option ℚ
  entry_price : Option ℚ
  under_entry_price : Option ℚ
deriving DecidableEq, Repr

/-- The freshly-initialised breakdown state (lines 14-20: every candle
attribute and `_entry_price` set to `None`; `entry_price` not yet created). -/
def bdFresh : BDState :=
  { first_candle_start := none, first_candle_high := none,
    first_candle_low := none, first_candle_close := none,
    second_candle_start := none, second_candle_high := none,
    second_candle_low := none, second_candle_close := none,
    entry_price := none, under_entry_price := none }

/-- `FifteenMinBreakdownStrategy._restore_state_from_position` (lines 22-25):
it assigns `self.entry_price`, a distinct attribute from the
`self._entry_price` the exit logic reads. -/
def bdRestore (st : BDState) (p : Position) : BDState :=
  { st with entry_price := p.entry_price }

/-- `Strategy._initialize_state` specialised to `"15MinBreakdown"`. -/
def bdInitState (om : OMState) (sym : String) (st : BDState) : BDState :=
  match get_open_position om sym with
  | some p => if p.strategy = some "15MinBreakdown" then bdRestore st p else st
  | none => st

/-- Constructing a `FifteenMinBreakdownStrategy` (lines 10-20):
`super().__init__` (hence `_initialize_state`) runs first, then the
subclass body sets all candle attributes and `_entry_price` to `None`. -/
def bdConstruct (om : OMState) (sym : String) : BDState :=
  let st1 := bdInitState om sym bdFresh
  { st1 with first_candle_start := none, first_candle_high := none,
             first_candle_low := none, first_candle_close := none,
             second_candle_start := none, under_entry_price := none }

/-- `timestamp.replace(minute=(minute // 15) * 15, second=0, microsecond=0)`
(line 43-44) on a seconds-since-midnight timestamp: floor to the nearest
15-minute (900-second) multiple, which is aligned to the top of the hour. -/
def floor15 (t : ℕ) : ℕ := (t / 900) * 900

mutual

/-- `FifteenMinBreakdownStrategy.on_tick` (lines 27-107).  The first
argument is recursion fuel for the `_reset_candles` → `on_tick` re-entry;
the re-entered call always lands in the first-candle initialisation branch,
so any fuel ≥ 1 suffices at the call sites used below. -/
def bdOnTick (cfg : StratCfg) : ℕ → BDState → OMState → ℕ → Msg →
    BDState × OMState
  | 0, st, om, _, _ => (st, om)
  | fuel + 1, st, om, ts, data =>
    match stratPrice data with
    | none => (st, om)
    | some price =>
      if price = 0 then (st, om)
      else
        let position_details := get_open_position om cfg.symbol
        let is_my_trade : Bool :=
          match position_details with
          | some p => p.strategy == some "15MinBreakdown"
          | none => false
        let current_qty :=
          match position_details with
          | some p => p.quantity
          | none => 0
        if position_details.isSome && !is_my_trade then (st, om)
        else
          match st.first_candle_start with
          | none =>
              ({ st with first_candle_start := some (floor15 ts),
                         first_candle_high := some price,
                         first_candle_low := some price,
                         first_candle_close := some price }, om)
          | some fstart =>
            let first_end := fstart + 900
            -- high/low/close are always set together with the start
            let fh := st.first_candle_high.getD price
            let fl := st.first_candle_low.getD price
            if ts < first_end then
              ({ st with first_candle_high := some (max fh price),
                         first_candle_low := some (min fl price),
                         first_candle_close := some price }, om)
            else
              match st.second_candle_start with
              | none =>
                let move_pct := (fh - fl) / fl * 100
                if move_pct ≥ 1 then bdReset cfg fuel st om ts
                else
                  ({ st with second_candle_start := some first_end,
                             second_candle_high := some price,
                             second_candle_low := some price,
                             second_candle_close := some price }, om)
              | some sstart =>
                let second_end := sstart + 900
                if ts < second_end ∧ current_qty = 0 then
                  let sh := st.second_candle_high.getD price
                  let sl := st.second_candle_low.getD price
                  let st' := { st with
                    second_candle_high := some (max sh price),
                    second_candle_low := some (min sl price),
                    second_candle_close := some price }
                  if price < fl then
                    let qty := calculate_quantity cfg price
                    if qty > 0 then
                      let om' := place_order om cfg.symbol qty (-1)
                        (some "15MinBreakdown") none none (some price)
                      ({ st' with under_entry_price := some price }, om')
                    else (st', om)
                  else (st', om)
                else
                  if current_qty < 0 ∧ truthyQ st.under_entry_price then
                    match st.under_entry_price with
                    | some ep =>
                        let target := ep * (98 / 100)
                        let stop_loss := ep * (101 / 100)
                        if price ≤ target ∨ price ≥ stop_loss then
                          let om' := place_order om cfg.symbol (-current_qty) 1
                            (some "15MinBreakdown") (some ep)
                            (some "SL/TP Hit") (some price)
                          bdReset cfg fuel st om' ts
                        else (st, om)
                    | none => (st, om)
                  else
                    if second_end ≤ ts then bdReset cfg fuel st om ts
                    else (st, om)

/-- `FifteenMinBreakdownStrategy._reset_candles` (lines 109-119): clear the
candle state (`_second_candle_close` is kept) and, when a second-candle
close exists and is truthy, re-process the tick through `on_tick` with a
`{'close': ...}` message. -/
def bdReset (cfg : StratCfg) : ℕ → BDState → OMState → ℕ → BDState × OMState
  | fuel, st, om, ts =>
    let st' := { st with first_candle_start := none, first_candle_high := none,
                         first_candle_low := none, first_candle_close := none,
                         second_candle_start := none, under_entry_price := none }
    match st'.second_candle_close with
    | some c =>
        if c ≠ 0 then
          bdOnTick cfg fuel st' om ts { symbol := none, ltp := none, close := some c }
        else (st', om)
    | none => (st', om)

end

/-- Run the breakdown strategy over a list of `(timestamp, ltp)` ticks, as
the backtest loop does (engine.py lines 331-332), with fuel 2 per tick
(the `_reset_candles` re-entry has depth at most 1). -/
def bdRun (cfg : StratCfg) (ticks : List (ℕ × ℚ)) (st : BDState) (om : OMState) :
    BDState × OMState :=
  ticks.foldl
    (fun acc tk =>
      bdOnTick cfg 2 acc.1 acc.2 tk.1 { symbol := some cfg.symbol, ltp := some tk.2, close := none })
    (st, om)

/-- The four-tick bucketing scenario of C9: ticks at 09:15:05, 09:21:40,
09:29:59 and 09:30:01 (seconds of day 33305, 33700, 34199, 34201) fed to a
fresh `FifteenMinBreakdownStrategy` with an empty ledger. -/
def bdScenario (cfg : StratCfg) (p1 p2 p3 p4 : ℚ) : BDState × OMState :=
  bdRun cfg [(33305, p1), (33700, p2), (34199, p3), (34201, p4)] bdFresh emptyOM

/-- A `FifteenMinBreakdownStrategy` instance as the live dispatcher holds it:
a fresh strategy object `on_tick` driven by the incoming message. -/
def bdDispatchStrat : StratF := fun ts m om =>
  Except.ok (bdOnTick ⟨"NSE:X", "Intraday", "Quantity", 1⟩ 2 bdFresh om ts m).2

/-! ### `OpeningBreakoutStrategy` (`strategies/opening_breakout.py`) -/

/-- The instance attributes of `OpeningBreakoutStrategy` (lines 11-25).
`candle_close_time` is 09:30:00 (34200 s) and `market_close_time` 15:15:00
(54900 s); timestamps are `(day, seconds-of-day)` pairs. -/
structure OBState where
  threshold_percent : ℚ
  stoploss_percent : ℚ
  target_percent : ℚ
  fifteen_min_close_price : Option ℚ
  position : Option String
  entry_price : Option ℚ
  trade_taken_today : Bool
  current_day : Option ℕ
deriving DecidableEq, Repr

/-- `OpeningBreakoutStrategy._manage_open_position` (lines 42-69).  Reading
`self.entry_price` while it is `None` would raise a `TypeError` in Python,
modelled as `Except.error`. -/
def obManage (cfg : StratCfg) (st : OBState) (om : OMState) (sod : ℕ)
    (price : ℚ) : Except String (OBState × OMState) :=
  match st.entry_price with
  | none => Except.error "TypeError: unsupported operand"
  | some ep =>
    let hit :=
      if st.position = some "long" then
        if price ≥ ep * (1 + st.target_percent / 100) then
          some "Target Profit Hit"
        else if price ≤ ep * (1 - st.stoploss_percent / 100) then
          some "Stop Loss Hit"
        else none
      else if st.position = some "short" then
        if price ≤ ep * (1 - st.target_percent / 100) then
          some "Target Profit Hit"
        else if price ≥ ep * (1 + st.stoploss_percent / 100) then
          some "Stop Loss Hit"
        else none
      else none
    let squareOff := cfg.trade_type = "Intraday" ∧ sod ≥ 54900
    let exitPlan : Option String :=
      if squareOff then some "Intraday Auto Square-Off" else hit
    match exitPlan with
    | none => Except.ok (st, om)
    | some reason =>
        let qty := calculate_quantity cfg price
        if qty ≤ 0 then Except.ok (st, om)
        else
          let side : ℤ := if st.position = some "long" then -1 else 1
          let om' := place_order om cfg.symbol qty side
            (some "Opening Breakout") (some ep) (some reason) (some price)
          Except.ok ({ st with position := none, trade_taken_today := true }, om')

/-- `OpeningBreakoutStrategy._look_for_entry_signal` (lines 71-93). -/
def obLookForEntry (cfg : StratCfg) (st : OBState) (om : OMState) (c : ℚ)
    (price : ℚ) : OBState × OMState :=
  let qty := calculate_quantity cfg price
  if qty ≤ 0 then (st, om)
  else
    let breakout_high := c * (1 + st.threshold_percent / 100)
    let breakout_low := c * (1 - st.threshold_percent / 100)
    if price > breakout_high then
      let om' := place_order om cfg.symbol qty 1 (some "Opening Breakout")
        (some price) none (some price)
      ({ st with position := some "long", entry_price := some price }, om')
    else if price < breakout_low then
      let om' := place_order om cfg.symbol qty (-1) (some "Opening Breakout")
        (some price) none (some price)
      ({ st with position := some "short", entry_price := some price }, om')
    else (st, om)

/-- `OpeningBreakoutStrategy.on_tick` (lines 27-40).  Note: unlike every
other concrete strategy, this `on_tick` never queries the ledger via
`get_open_position` before acting. -/
def obOnTick (cfg : StratCfg) (st : OBState) (om : OMState) (day sod : ℕ)
    (price : ℚ) : Except String (OBState × OMState) :=
  let newDay :=
    match st.current_day with
    | none => true
    | some d => day > d
  let st1 :=
    if newDay then
      { st with fifteen_min_close_price := none, trade_taken_today := false,
                current_day := some day }
    else st
  if st1.position.isSome then obManage cfg st1 om sod price
  else
    let st2 :=
      if st1.fifteen_min_close_price = none ∧ sod ≥ 34200 then
        { st1 with fifteen_min_close_price := some price }
      else st1
    match st2.fifteen_min_close_price with
    | some c =>
        if st2.position = none ∧ st2.trade_taken_today = false then
          Except.ok (obLookForEntry cfg st2 om c price)
        else Except.ok (st2, om)
    | none => Except.ok (st2, om)

/-! ### Helper lemmas -/

theorem lookupPos_updateQty (l : List (String × Position)) (sym : String) (q : ℤ) :
    lookupPos (updateQty l sym q) sym =
      (lookupPos l sym).map (fun p => { p with quantity := q }) := by
  induction l with
  | nil => rfl
  | cons kp rest ih =>
      obtain ⟨k, p⟩ := kp
      simp only [updateQty, List.map_cons]
      by_cases h : k = sym
      · subst h
        rw [if_pos rfl]
        simp only [lookupPos, if_pos rfl]
        rfl
      · rw [if_neg h]
        simp only [lookupPos]
        rw [if_neg h, if_neg h]
        simpa [updateQty] using ih

theorem lookupPos_append_single (l : List (String × Position)) (sym : String)
    (p : Position) (h : lookupPos l sym = none) :
    lookupPos (l ++ [(sym, p)]) sym = some p := by
  induction l with
  | nil => simp [lookupPos]
  | cons kp rest ih =>
      by_cases hk : kp.1 = sym
      · simp [lookupPos, hk] at h
      · simp only [lookupPos, if_neg hk] at h
        simpa [lookupPos, hk] using ih h

theorem rat_floor_eq_intFloor (q : ℚ) : q.floor = ⌊q⌋ := rfl

theorem sleepChunksMs_mem_le (n : ℕ) : ∀ c ∈ sleepChunksMs n, c ≤ 100 := by
  induction n using Nat.strong_induction_on with
  | _ n ih =>
      match n with
      | 0 => simp [sleepChunksMs]
      | m + 1 =>
          rw [sleepChunksMs]
          intro c hc
          rcases List.mem_cons.mp hc with h | h
          · subst h; exact min_le_left _ _
          · exact ih (m + 1 - min 100 (m + 1))
              (by have : 1 ≤ min 100 (m + 1) := le_min (by norm_num) (Nat.succ_le_succ (Nat.zero_le m)); omega)
              c h

theorem sleepChunksMs_sum (n : ℕ) : (sleepChunksMs n).sum = n := by
  induction n using Nat.strong_induction_on with
  | _ n ih =>
      match n with
      | 0 => simp [sleepChunksMs]
      | m + 1 =>
          rw [sleepChunksMs]
          have h1 : 1 ≤ min 100 (m + 1) :=
            le_min (by norm_num) (Nat.succ_le_succ (Nat.zero_le m))
          have h2 : min 100 (m + 1) ≤ m + 1 := min_le_right _ _
          rw [List.sum_cons, ih (m + 1 - min 100 (m + 1)) (by omega)]
          omega

theorem round2_intCast (z : ℤ) : round2 (z : ℚ) = z := by
  simp only [round2]
  have hn : ((z : ℚ)) * 100 = ((z * 100 : ℤ) : ℚ) := by push_cast; ring
  rw [hn, rat_floor_eq_intFloor, Int.floor_intCast, sub_self]
  rw [if_pos (by norm_num : (0 : ℚ) < 1 / 2)]
  push_cast
  rw [mul_div_assoc]
  norm_num

theorem round2_zero : round2 0 = 0 := by
  simpa using round2_intCast 0

/-- The single-symbol ledger invariant of C1: either the running quantity is
zero and the positions dictionary is empty, or it is non-zero and the
dictionary holds exactly one entry for the symbol carrying that quantity. -/
def posInv (sym : String) (st : OMState) (q : ℤ) : Prop :=
  (q = 0 ∧ st.positions = []) ∨
  (q ≠ 0 ∧ ∃ p : Position, st.positions = [(sym, p)] ∧ p.quantity = q)

theorem place_order_posInv (sym : String) (c : OrderCall) (st : OMState) (q : ℤ)
    (h : posInv sym st q) :
    posInv sym
      (place_order st sym c.qty c.side c.strategy_name c.entry_price
        c.exit_reason c.price)
      (q + c.qty * c.side) := by
  rcases h with ⟨hq, hpos⟩ | ⟨hq, p, hpos, hpq⟩
  · subst hq
    simp only [place_order, get_open_position, get_position, hpos, lookupPos]
    by_cases h0 : (0 : ℤ) + c.qty * c.side = 0
    · rw [if_pos h0]
      exact Or.inl ⟨by omega, by simp [removePos]⟩
    · rw [if_neg h0]
      exact Or.inr ⟨by omega,
        ⟨{ quantity := 0 + c.qty * c.side, strategy := c.strategy_name,
           entry_price := c.price }, by simp, rfl⟩⟩
  · simp only [place_order, get_open_position, get_position, hpos, lookupPos,
      eq_self_iff_true, if_true]
    by_cases h0 : p.quantity + c.qty * c.side = 0
    · rw [if_pos h0]
      exact Or.inl ⟨by omega, by simp [removePos]⟩
    · rw [if_neg h0]
      refine Or.inr ⟨by omega, ⟨{ p with quantity := p.quantity + c.qty * c.side },
        ?_, by simp; omega⟩⟩
      simp [updateQty]


theorem runOrders_posInv (sym : String) (calls : List OrderCall) :
    ∀ (st : OMState) (q : ℤ), posInv sym st q →
      posInv sym (runOrders sym st calls) (q + signedSum calls) := by
  induction calls with
  | nil => intro st q h; simpa [runOrders, signedSum] using h
  | cons c rest ih =>
      intro st q h
      have h2 := ih _ _ (place_order_posInv sym c st q h)
      have hsum : q + c.qty * c.side + signedSum rest = q + signedSum (c :: rest) := by
        simp [signedSum]; ring
      rw [hsum] at h2
      exact h2

/-- C1. Ledger zero-crossing: running any sequence of `place_order` calls on
one symbol from the empty ledger, the positions dictionary has no entry for
the symbol exactly when the running signed sum of `quantity * side` is 0,
and otherwise exactly one entry whose quantity equals that sum. -/
theorem ledger_zero_crossing (sym : String) (calls : List OrderCall) :
    (signedSum calls = 0 →
      (runOrders sym emptyOM calls).positions.filter (fun kp => kp.1 == sym) = []) ∧
    (signedSum calls ≠ 0 →
      ∃ p : Position,
        (runOrders sym emptyOM calls).positions.filter (fun kp => kp.1 == sym) =
          [(sym, p)] ∧
        p.quantity = signedSum calls) := by
  have h := runOrders_posInv sym calls emptyOM 0 (Or.inl ⟨rfl, rfl⟩)
  rw [zero_add] at h
  rcases h with ⟨hz, hpos⟩ | ⟨hnz, p, hpos, hq⟩
  · exact ⟨fun _ => by rw [hpos]; rfl, fun hne => absurd hz hne⟩
  · refine ⟨fun h0 => absurd h0 hnz, fun _ => ⟨p, ?_, hq⟩⟩
    rw [hpos]
    simp [List.filter]

/-- Witness for C1: buy 5 then sell 2 leaves one entry of quantity 3. -/
theorem ledger_zero_crossing_witness :
    signedSum [⟨5, 1, none, none, none, some 100⟩,
               ⟨2, -1, none, none, none, some 101⟩] ≠ 0 ∧
    ∃ p : Position,
      (runOrders "NSE:A" emptyOM
          [⟨5, 1, none, none, none, some 100⟩,
           ⟨2, -1, none, none, none, some 101⟩]).positions.filter
          (fun kp => kp.1 == "NSE:A") = [("NSE:A", p)] ∧
      p.quantity = signedSum [⟨5, 1, none, none, none, some 100⟩,
                              ⟨2, -1, none, none, none, some 101⟩] :=
  ⟨by decide,
   (ledger_zero_crossing "NSE:A"
      [⟨5, 1, none, none, none, some 100⟩,
       ⟨2, -1, none, none, none, some 101⟩]).2 (by decide)⟩

/-- C4 (amended). P&L computation: the appended trade record's `pnl` is
`round((price - entry_price) * qty, 2)` for `side = -1` and
`round((entry_price - price) * qty, 2)` for `side = 1` whenever
`exit_reason`, `entry_price` and `price` are all present *and truthy*
(non-empty string, non-zero numbers); in every other call the recorded
`pnl` is 0.  A present but zero `entry_price` falls in the second case
because the guard uses Python truthiness. -/
theorem pnl_on_exit (st : OMState) (sym : String) (qty side : ℤ)
    (sn : Option String) (ep : Option ℚ) (er : Option String) (pr : Option ℚ) :
    ∃ rec : TradeRecord,
      (place_order st sym qty side sn ep er pr).history = st.history ++ [rec] ∧
      rec.quantity = qty ∧ rec.price = pr ∧
      ((truthyS er ∧ truthyQ ep ∧ truthyQ pr) →
        (side = -1 → rec.pnl = round2 ((pr.getD 0 - ep.getD 0) * qty)) ∧
        (side = 1 → rec.pnl = round2 ((ep.getD 0 - pr.getD 0) * qty))) ∧
      (¬ (truthyS er ∧ truthyQ ep ∧ truthyQ pr) → rec.pnl = 0) := by
  refine ⟨_, rfl, rfl, rfl, fun h => ⟨fun hside => ?_, fun hside => ?_⟩, fun h => ?_⟩
  · simp only [orderPnl, if_pos h, hside]
    rw [if_pos trivial]
  · simp only [orderPnl, if_pos h, hside]
    rw [if_neg (by decide : ¬ (1 : ℤ) = -1), if_pos trivial]
  · simp only [orderPnl, if_neg h]
    exact round2_zero

/-- Witness for C4: the claim's concrete long exit, `side = -1`,
`entry_price = 100`, `price = 110`, `qty = 10`, records `pnl = 100`. -/
theorem pnl_on_exit_witness :
    ∃ rec : TradeRecord,
      (place_order emptyOM "NSE:A" 10 (-1) (some "SMA Crossover") (some 100)
          (some "Target Profit Hit") (some 110)).history = [] ++ [rec] ∧
      rec.pnl = 100 := by
  obtain ⟨rec, hh, _, _, ht, _⟩ := pnl_on_exit emptyOM "NSE:A" 10 (-1)
    (some "SMA Crossover") (some 100) (some "Target Profit Hit") (some 110)
  refine ⟨rec, hh, ?_⟩
  rw [(ht (by decide)).1 rfl]
  have : (((some (110 : ℚ)).getD 0 - (some (100 : ℚ)).getD 0) * (10 : ℤ)) =
      ((100 : ℤ) : ℚ) := by norm_num
  rw [this, round2_intCast]
  norm_num

/-- Counterexample for C4 as stated: with `exit_reason`, `entry_price` and
`price` all *present* but `entry_price = 0`, the code records `pnl = 0`,
not the claimed `(price - entry_price) * qty = 1100`. -/
theorem pnl_on_exit_counterexample :
    ∃ rec : TradeRecord,
      (place_order emptyOM "NSE:A" 10 (-1) (some "SMA Crossover") (some 0)
          (some "Stop Loss Hit") (some 110)).history = [rec] ∧
      rec.pnl = 0 ∧
      round2 (((some (110 : ℚ)).getD 0 - (some (0 : ℚ)).getD 0) * (10 : ℤ)) = 1100 := by
  refine ⟨_, rfl, ?_, ?_⟩
  · show round2 (orderPnl 10 (-1) (some 0) (some "Stop Loss Hit") (some 110)) = 0
    have : orderPnl 10 (-1) (some 0) (some "Stop Loss Hit") (some 110) = 0 := by
      simp only [orderPnl]
      rw [if_neg (by decide)]
    rw [this]
    exact round2_zero
  · have : (((some (110 : ℚ)).getD 0 - (some (0 : ℚ)).getD 0) * (10 : ℤ)) =
        ((1100 : ℤ) : ℚ) := by norm_num
    rw [this, round2_intCast]
    norm_num

/-- C5. Sizing correctness: for every price > 0, `_calculate_quantity`
returns `sizing_value` for `"Quantity"` sizing, and
`floor(sizing_value / price)` for `"Amount"` sizing with 0 returned when the
price exceeds `sizing_value`; for every price ≤ 0 it returns 0.
Concretely: Amount 1000 at price 150 gives 6; Amount 100 at price 150 gives
0; Quantity 5 gives 5 for every positive price. -/
theorem sizing_correct (sym tt : String) (sv : ℤ) (price : ℚ) :
    (0 < price →
      calculate_quantity ⟨sym, tt, "Quantity", sv⟩ price = sv ∧
      ((sv : ℚ) < price → calculate_quantity ⟨sym, tt, "Amount", sv⟩ price = 0) ∧
      (price ≤ (sv : ℚ) →
        calculate_quantity ⟨sym, tt, "Amount", sv⟩ price = ((sv : ℚ) / price).floor)) ∧
    (price ≤ 0 → ∀ stype : String, calculate_quantity ⟨sym, tt, stype, sv⟩ price = 0) ∧
    calculate_quantity ⟨sym, tt, "Amount", 1000⟩ 150 = 6 ∧
    calculate_quantity ⟨sym, tt, "Amount", 100⟩ 150 = 0 ∧
    (0 < price → calculate_quantity ⟨sym, tt, "Quantity", 5⟩ price = 5) := by
  refine ⟨fun hp => ⟨?_, fun hlt => ?_, fun hge => ?_⟩, fun hp stype => ?_, ?_, ?_, fun hp => ?_⟩
  · simp [calculate_quantity, not_le.mpr hp]
  · simp [calculate_quantity, not_le.mpr hp, hlt]
  · simp [calculate_quantity, not_le.mpr hp, not_lt.mpr hge]
  · simp [calculate_quantity, hp]
  · simp only [calculate_quantity]
    rw [if_neg (by norm_num : ¬ (150 : ℚ) ≤ 0),
        if_neg (by decide : ¬ "Amount" = "Quantity"), if_pos trivial,
        if_neg (by norm_num : ¬ ((1000 : ℤ) : ℚ) < 150)]
    rw [rat_floor_eq_intFloor, Int.floor_eq_iff]
    constructor <;> norm_num
  · simp only [calculate_quantity]
    rw [if_neg (by norm_num : ¬ (150 : ℚ) ≤ 0),
        if_neg (by decide : ¬ "Amount" = "Quantity"), if_pos trivial,
        if_pos (by norm_num : ((100 : ℤ) : ℚ) < 150)]
  · simp [calculate_quantity, not_le.mpr hp]

/-- Witness for C5 at concrete inputs. -/
theorem sizing_correct_witness :
    (0 : ℚ) < 150 ∧ calculate_quantity ⟨"NSE:A", "Intraday", "Quantity", 7⟩ 150 = 7 :=
  ⟨by norm_num, ((sizing_correct "NSE:A" "Intraday" 7 150).1 (by norm_num)).1⟩

/-- C6. Simulation pacing: the per-tick delay is the historical gap divided
by the speed, except that a gap above 300 s (an abnormally large /
overnight gap) is first capped to 1 s — hence at speed ≥ 1 the capped delay
is at most one second; the slept time is the delay minus the wall-clock
time spent processing the previous tick; and the sleep loop polls the stop
flag in chunks of at most 100 ms that together cover the whole duration. -/
theorem pacing_correct (gap speed elapsed : ℚ) (n : ℕ) (hs : 0 < speed) :
    (gap ≤ 300 → simDelay gap speed = gap / speed) ∧
    (300 < gap → simDelay gap speed = 1 / speed) ∧
    (300 < gap → 1 ≤ speed → simDelay gap speed ≤ 1) ∧
    sleepDuration gap speed elapsed = simDelay gap speed - elapsed ∧
    (∀ c ∈ sleepChunksMs n, c ≤ 100) ∧
    (sleepChunksMs n).sum = n := by
  refine ⟨fun h => ?_, fun h => ?_, fun h h1 => ?_, rfl,
    sleepChunksMs_mem_le n, sleepChunksMs_sum n⟩
  · simp [simDelay, not_lt.mpr h, not_le.mpr hs]
  · simp [simDelay, h, not_le.mpr hs]
  · have hd : simDelay gap speed = 1 / speed := by simp [simDelay, h, not_le.mpr hs]
    rw [hd, div_le_one hs]
    exact h1

/-- Witness for C6 at a concrete overnight gap. -/
theorem pacing_correct_witness :
    (0 : ℚ) < 2 ∧ simDelay 400 2 = 1 / 2 :=
  ⟨by norm_num, (pacing_correct 400 2 0 0 (by norm_num)).2.1 (by norm_num)⟩

/-- C7 is a code bug: the state restoration performed during
`Strategy.__init__` is immediately discarded.  For `SMACrossoverStrategy`,
`_initialize_state` (run from `super().__init__`, base_strategy.py line 25)
restores `entry_price = 100` from the matching ledger position, but the
subclass body then executes `self.entry_price = None` (sma_crossover.py
line 17), so the constructed instance has no entry price and a subsequent
exit would use `None`.  For `FifteenMinBreakdownStrategy`,
`_restore_state_from_position` writes `self.entry_price` (line 23) while
the exit logic reads `self._entry_price` (lines 90-92), which the
constructor leaves `None`. -/
theorem restore_state_clobbered :
    ((smaInitState ⟨[("NSE:X", ⟨5, some "SMA Crossover", some 100⟩)], []⟩
        "NSE:X" ⟨5, 20, [], none, none, none⟩).entry_price = some 100) ∧
    ((smaConstruct ⟨[("NSE:X", ⟨5, some "SMA Crossover", some 100⟩)], []⟩
        "NSE:X" 5 20).entry_price = none) ∧
    ((bdInitState ⟨[("NSE:X", ⟨-5, some "15MinBreakdown", some 100⟩)], []⟩
        "NSE:X" bdFresh).entry_price = some 100) ∧
    ((bdConstruct ⟨[("NSE:X", ⟨-5, some "15MinBreakdown", some 100⟩)], []⟩
        "NSE:X").entry_price = some 100) ∧
    ((bdConstruct ⟨[("NSE:X", ⟨-5, some "15MinBreakdown", some 100⟩)], []⟩
        "NSE:X").under_entry_price = none) := by
  decide

/-- C2 is a code bug: `OpeningBreakoutStrategy.on_tick` never checks ledger
ownership.  With the ledger holding a position for the symbol under the
foreign strategy name "Other Strategy" and the instance's own signal state
armed (15-minute close 100, threshold 1%), a tick at price 102 places a BUY
order: the trade history grows by one record and the foreign position's
quantity is corrupted from 5 to 6, where the claim demands zero
`place_order` calls. -/
theorem ownership_not_checked :
    ∃ r : OBState × OMState,
      obOnTick ⟨"NSE:X", "Intraday", "Quantity", 1⟩
          ⟨1, 1, 2, some 100, none, none, false, some 10⟩
          ⟨[("NSE:X", ⟨5, some "Other Strategy", some 50⟩)], []⟩
          10 36000 102 = Except.ok r ∧
      r.2.positions = [("NSE:X", ⟨6, some "Other Strategy", some 50⟩)] ∧
      r.2.history.length = 1 := by
  have hq : calculate_quantity ⟨"NSE:X", "Intraday", "Quantity", 1⟩ 102 = 1 := by
    simp only [calculate_quantity]
    rw [if_neg (by norm_num : ¬ (102 : ℚ) ≤ 0), if_pos trivial]
  have h1 : obOnTick ⟨"NSE:X", "Intraday", "Quantity", 1⟩
      ⟨1, 1, 2, some 100, none, none, false, some 10⟩
      ⟨[("NSE:X", ⟨5, some "Other Strategy", some 50⟩)], []⟩ 10 36000 102 =
      Except.ok (obLookForEntry ⟨"NSE:X", "Intraday", "Quantity", 1⟩
        ⟨1, 1, 2, some 100, none, none, false, some 10⟩
        ⟨[("NSE:X", ⟨5, some "Other Strategy", some 50⟩)], []⟩ 100 102) := by
    simp [obOnTick]
  have h2 : obLookForEntry ⟨"NSE:X", "Intraday", "Quantity", 1⟩
      ⟨1, 1, 2, some 100, none, none, false, some 10⟩
      ⟨[("NSE:X", ⟨5, some "Other Strategy", some 50⟩)], []⟩ 100 102 =
      (⟨1, 1, 2, some 100, some "long", some 102, false, some 10⟩,
       place_order ⟨[("NSE:X", ⟨5, some "Other Strategy", some 50⟩)], []⟩
         "NSE:X" 1 1 (some "Opening Breakout") (some 102) none (some 102)) := by
    simp only [obLookForEntry, hq]
    rw [if_neg (by norm_num : ¬ (1 : ℤ) ≤ 0),
        if_pos (by norm_num : (102 : ℚ) > 100 * (1 + 1 / 100))]
  have h3 : (place_order ⟨[("NSE:X", ⟨5, some "Other Strategy", some 50⟩)], []⟩
      "NSE:X" 1 1 (some "Opening Breakout") (some 102) none (some 102)).positions =
      [("NSE:X", ⟨6, some "Other Strategy", some 50⟩)] := by
    simp only [place_order, get_open_position, get_position, lookupPos]
    norm_num [updateQty]
  have h4 : (place_order ⟨[("NSE:X", ⟨5, some "Other Strategy", some 50⟩)], []⟩
      "NSE:X" 1 1 (some "Opening Breakout") (some 102) none (some 102)).history.length = 1 := by
    simp [place_order]
  exact ⟨_, by rw [h1, h2], h3, h4⟩

/-- C3. Entry-price stickiness: a `place_order` call on a symbol that
already has a Position and whose resulting quantity is non-zero leaves
`entry_price` and `strategy` unchanged (only `quantity` changes); a call
creating a Position from an absent state sets `entry_price` to the `price`
argument (and `strategy` to the `strategy_name` argument). -/
theorem entry_price_sticky (st : OMState) (sym : String) (qty side : ℤ)
    (sn : Option String) (ep : Option ℚ) (er : Option String) (pr : Option ℚ) :
    (∀ p, lookupPos st.positions sym = some p → p.quantity + qty * side ≠ 0 →
      lookupPos (place_order st sym qty side sn ep er pr).positions sym =
        some { quantity := p.quantity + qty * side, strategy := p.strategy,
               entry_price := p.entry_price }) ∧
    (lookupPos st.positions sym = none → qty * side ≠ 0 →
      lookupPos (place_order st sym qty side sn ep er pr).positions sym =
        some { quantity := qty * side, strategy := sn, entry_price := pr }) := by
  constructor
  · intro p hp hnz
    simp only [place_order, get_open_position, get_position, hp]
    rw [if_neg hnz]
    simp [lookupPos_updateQty, hp]
  · intro hp hnz
    simp only [place_order, get_open_position, get_position, hp]
    rw [if_neg (by simpa using hnz), zero_add]
    exact lookupPos_append_single st.positions sym _ hp

/-- Witness for C3: adding 2 long on an existing 5-long position keeps the
original entry price 100 and strategy, with quantity 7. -/
theorem entry_price_sticky_witness :
    lookupPos (place_order
        ⟨[("NSE:A", ⟨5, some "SMA Crossover", some 100⟩)], []⟩
        "NSE:A" 2 1 (some "SMA Crossover") none none (some 120)).positions
        "NSE:A" =
      some ⟨7, some "SMA Crossover", some 100⟩ := by
  have h := (entry_price_sticky
      ⟨[("NSE:A", ⟨5, some "SMA Crossover", some 100⟩)], []⟩
      "NSE:A" 2 1 (some "SMA Crossover") none none (some 120)).1
      ⟨5, some "SMA Crossover", some 100⟩ (by decide) (by decide)
  simpa using h

theorem bdOnTick2_init (cfg : StratCfg) (st : BDState) (om : OMState) (ts : ℕ)
    (m : Msg) (p : ℚ)
    (hm : stratPrice m = some p) (hp : ¬ p = 0)
    (hpos : get_open_position om cfg.symbol = none)
    (hfirst : st.first_candle_start = none) :
    bdOnTick cfg 2 st om ts m =
      ({ st with first_candle_start := some (floor15 ts),
                 first_candle_high := some p, first_candle_low := some p,
                 first_candle_close := some p }, om) := by
  simp only [bdOnTick, hm, hpos, hfirst]
  rw [if_neg hp]
  simp

theorem bdOnTick2_firstUpdate (cfg : StratCfg) (st : BDState) (om : OMState)
    (ts : ℕ) (m : Msg) (p : ℚ) (b : ℕ) (h l : ℚ)
    (hm : stratPrice m = some p) (hp : ¬ p = 0)
    (hpos : get_open_position om cfg.symbol = none)
    (hfirst : st.first_candle_start = some b)
    (hh : st.first_candle_high = some h) (hl : st.first_candle_low = some l)
    (hts : ts < b + 900) :
    bdOnTick cfg 2 st om ts m =
      ({ st with first_candle_high := some (max h p),
                 first_candle_low := some (min l p),
                 first_candle_close := some p }, om) := by
  simp only [bdOnTick, hm, hpos, hfirst, hh, hl]
  rw [if_neg hp, if_pos hts]
  simp

theorem bdOnTick2_secondOpen (cfg : StratCfg) (st : BDState) (om : OMState)
    (ts : ℕ) (m : Msg) (p : ℚ) (b : ℕ) (h l : ℚ)
    (hm : stratPrice m = some p) (hp : ¬ p = 0)
    (hpos : get_open_position om cfg.symbol = none)
    (hfirst : st.first_candle_start = some b)
    (hh : st.first_candle_high = some h) (hl : st.first_candle_low = some l)
    (hts : b + 900 ≤ ts)
    (hsecond : st.second_candle_start = none)
    (hmove : ¬ ((h - l) / l * 100 ≥ 1)) :
    bdOnTick cfg 2 st om ts m =
      ({ st with second_candle_start := some (b + 900),
                 second_candle_high := some p, second_candle_low := some p,
                 second_candle_close := some p }, om) := by
  simp only [bdOnTick, hm, hpos, hfirst, hh, hl, hsecond, Option.getD_some]
  rw [if_neg hp, if_neg (not_lt.mpr hts), if_neg hmove]
  simp

theorem bdOnTick2_resetHighMove (cfg : StratCfg) (st : BDState) (om : OMState)
    (ts : ℕ) (m : Msg) (p : ℚ) (b : ℕ) (h l : ℚ)
    (hm : stratPrice m = some p) (hp : ¬ p = 0)
    (hpos : get_open_position om cfg.symbol = none)
    (hfirst : st.first_candle_start = some b)
    (hh : st.first_candle_high = some h) (hl : st.first_candle_low = some l)
    (hts : b + 900 ≤ ts)
    (hsecond : st.second_candle_start = none)
    (hsc : st.second_candle_close = none)
    (hmove : (h - l) / l * 100 ≥ 1) :
    bdOnTick cfg 2 st om ts m =
      ({ st with first_candle_start := none, first_candle_high := none,
                 first_candle_low := none, first_candle_close := none,
                 second_candle_start := none, under_entry_price := none }, om) := by
  simp only [bdOnTick, hm, hpos, hfirst, hh, hl, hsecond, Option.getD_some]
  rw [if_neg hp, if_neg (not_lt.mpr hts), if_pos hmove]
  simp [bdReset, hsc]

/-- C8. Dispatcher fault isolation: when a strategy's `on_tick` raises while
processing a dispatched tick, `_process_tick` returns normally with the
ledger unchanged and one log line naming the offending symbol, and every
subsequently submitted tick is processed exactly as it would have been had
the faulting tick never been submitted. -/
theorem dispatcher_fault_isolated (active : List (String × StratF))
    (st : OMState) (ts : ℕ) (m : Msg) (sym : String) (f : StratF) (e : String)
    (rest : List (ℕ × Msg))
    (hsym : m.symbol = some sym) (hne : sym ≠ "")
    (hf : lookupStrat active sym = some f)
    (hp : (dispatchPrice m).isSome = true)
    (herr : f ts m st = Except.error e) :
    process_tick active st ts m = (st, true, [errLog sym e]) ∧
    processTicks active st ((ts, m) :: rest) =
      ((processTicks active st rest).1,
        errLog sym e :: (processTicks active st rest).2) := by
  have hpt : process_tick active st ts m = (st, true, [errLog sym e]) := by
    simp only [process_tick, hsym, hf, herr]
    rw [if_neg hne, if_pos hp]
  refine ⟨hpt, ?_⟩
  simp only [processTicks, hpt, List.singleton_append]

/-- Witness for C8: a raising strategy on NSE:A is logged and does not
disturb the processing of a following NSE:B tick. -/
theorem dispatcher_fault_isolated_witness :
    process_tick [("NSE:A", throwStrat), ("NSE:B", okStrat)] emptyOM 0
        ⟨some "NSE:A", some 1, none⟩ = (emptyOM, true, [errLog "NSE:A" "boom"]) ∧
    processTicks [("NSE:A", throwStrat), ("NSE:B", okStrat)] emptyOM
        [(0, ⟨some "NSE:A", some 1, none⟩), (1, ⟨some "NSE:B", some 2, none⟩)] =
      ((processTicks [("NSE:A", throwStrat), ("NSE:B", okStrat)] emptyOM
          [(1, ⟨some "NSE:B", some 2, none⟩)]).1,
        errLog "NSE:A" "boom" ::
          (processTicks [("NSE:A", throwStrat), ("NSE:B", okStrat)] emptyOM
            [(1, ⟨some "NSE:B", some 2, none⟩)]).2) :=
  dispatcher_fault_isolated [("NSE:A", throwStrat), ("NSE:B", okStrat)]
    emptyOM 0 ⟨some "NSE:A", some 1, none⟩ "NSE:A" throwStrat "boom"
    [(1, ⟨some "NSE:B", some 2, none⟩)]
    rfl (by decide) (by simp [lookupStrat]) (by decide) rfl

/-- C10 (amended). Tick dropping at the dispatcher boundary: if the
message's symbol is falsy or not among the active strategies, or the price
lookup — the truthy `ltp` value, else the `close` value — yields `None`
(i.e. `ltp` is absent or falsy and `close` is absent), then no strategy
`on_tick` is invoked and the ledger is unchanged.  (A present but falsy
`close` such as 0 passes the `is not None` guard, so `on_tick` *is*
invoked in that case; see the counterexample.) -/
theorem silent_tick_drop (active : List (String × StratF)) (st : OMState)
    (ts : ℕ) (m : Msg)
    (h : m.symbol = none ∨
         (∃ s, m.symbol = some s ∧ (s = "" ∨ lookupStrat active s = none)) ∨
         dispatchPrice m = none) :
    process_tick active st ts m = (st, false, []) := by
  rcases hm : m.symbol with _ | s
  · simp [process_tick, hm]
  · by_cases hs : s = ""
    · simp [process_tick, hm, hs]
    · rcases hf : lookupStrat active s with _ | f
      · simp [process_tick, hm, hs, hf]
      · have hp : dispatchPrice m = none := by
          rcases h with h | ⟨s', hs', h2⟩ | h
          · rw [hm] at h; exact absurd h (by simp)
          · rw [hm] at hs'
            injection hs' with hss
            subst hss
            rcases h2 with h2 | h2
            · exact absurd h2 hs
            · rw [hf] at h2; exact absurd h2 (by simp)
          · exact h
        simp [process_tick, hm, hs, hf, hp]

/-- Witness for C10 (amended): a tick for a symbol with no active strategy
is dropped. -/
theorem silent_tick_drop_witness :
    process_tick [] emptyOM 0 ⟨some "NSE:A", some 1, none⟩ =
      (emptyOM, false, []) :=
  silent_tick_drop [] emptyOM 0 ⟨some "NSE:A", some 1, none⟩
    (Or.inr (Or.inl ⟨"NSE:A", rfl, Or.inr rfl⟩))

/-- Counterexample for C10 as stated: a message whose `ltp` and `close` are
both present but falsy (`0`) — hence neither is truthy — still invokes the
strategy's `on_tick` (the dispatcher guard is `price is not None` and the
looked-up price is `0`, not `None`); the ledger stays unchanged only
because the strategy itself rejects the falsy price. -/
theorem silent_tick_drop_counterexample :
    process_tick [("NSE:X", bdDispatchStrat)] emptyOM 33305
        ⟨some "NSE:X", some 0, some 0⟩ = (emptyOM, true, []) := by
  have hbd : bdDispatchStrat 33305 ⟨some "NSE:X", some 0, some 0⟩ emptyOM =
      Except.ok emptyOM := by
    simp [bdDispatchStrat, bdOnTick, stratPrice]
  simp [process_tick, lookupStrat, dispatchPrice, hbd]

/-- C9 (amended). Candle bucket determinism: provided the first bucket's
high-low range stays below 1% of its low (otherwise the strategy resets and
opens no new bucket — see the counterexample), the four ticks at 09:15:05,
09:21:40, 09:29:59, 09:30:01 close exactly one bucket spanning
[09:15:00, 09:30:00) whose high/low/close are the max/min/last of the three
prices strictly inside the interval, and open a new bucket starting at
09:30:00 (34200 s) seeded with the fourth price; in general the bucket
boundary is the tick timestamp floored to the nearest 15-minute multiple
from the top of the hour, a tick strictly before `start + 15 min` still
updates the open bucket, and a tick on/after that boundary finalizes it and
opens the next bucket at exactly the boundary. -/
theorem candle_bucket_scenario (cfg : StratCfg) (p1 p2 p3 p4 : ℚ)
    (h1 : p1 ≠ 0) (h2 : p2 ≠ 0) (h3 : p3 ≠ 0) (h4 : p4 ≠ 0)
    (hmove : (max (max p1 p2) p3 - min (min p1 p2) p3) /
        min (min p1 p2) p3 * 100 < 1) :
    (bdScenario cfg p1 p2 p3 p4).1.first_candle_start = some 33300 ∧
    (bdScenario cfg p1 p2 p3 p4).1.first_candle_high = some (max (max p1 p2) p3) ∧
    (bdScenario cfg p1 p2 p3 p4).1.first_candle_low = some (min (min p1 p2) p3) ∧
    (bdScenario cfg p1 p2 p3 p4).1.first_candle_close = some p3 ∧
    (bdScenario cfg p1 p2 p3 p4).1.second_candle_start = some 34200 ∧
    (bdScenario cfg p1 p2 p3 p4).1.second_candle_high = some p4 ∧
    (bdScenario cfg p1 p2 p3 p4).2 = emptyOM ∧
    (∀ t : ℕ, floor15 t % 900 = 0 ∧ floor15 t ≤ t ∧ t < floor15 t + 900) ∧
    (∀ (st : BDState) (om : OMState) (ts : ℕ) (m : Msg) (p : ℚ) (b : ℕ) (h l : ℚ),
      stratPrice m = some p → p ≠ 0 → get_open_position om cfg.symbol = none →
      st.first_candle_start = some b → st.first_candle_high = some h →
      st.first_candle_low = some l → ts < b + 900 →
      (bdOnTick cfg 2 st om ts m).1.first_candle_start = some b ∧
      (bdOnTick cfg 2 st om ts m).1.first_candle_close = some p) ∧
    (∀ (st : BDState) (om : OMState) (ts : ℕ) (m : Msg) (p : ℚ) (b : ℕ) (h l : ℚ),
      stratPrice m = some p → p ≠ 0 → get_open_position om cfg.symbol = none →
      st.first_candle_start = some b → st.first_candle_high = some h →
      st.first_candle_low = some l → b + 900 ≤ ts →
      st.second_candle_start = none → (h - l) / l * 100 < 1 →
      (bdOnTick cfg 2 st om ts m).1.first_candle_high = some h ∧
      (bdOnTick cfg 2 st om ts m).1.second_candle_start = some (b + 900)) := by
  have hpos : get_open_position emptyOM cfg.symbol = none := rfl
  have hfl : floor15 33305 = 33300 := by norm_num [floor15]
  have e1 := bdOnTick2_init cfg bdFresh emptyOM 33305
    { symbol := some cfg.symbol, ltp := some p1, close := none } p1 rfl h1 hpos rfl
  rw [hfl] at e1
  have e2 := bdOnTick2_firstUpdate cfg
    { bdFresh with first_candle_start := some 33300, first_candle_high := some p1,
                   first_candle_low := some p1, first_candle_close := some p1 }
    emptyOM 33700 { symbol := some cfg.symbol, ltp := some p2, close := none } p2
    33300 p1 p1 rfl h2 hpos rfl rfl rfl (by norm_num)
  have e3 := bdOnTick2_firstUpdate cfg
    { bdFresh with first_candle_start := some 33300,
                   first_candle_high := some (max p1 p2),
                   first_candle_low := some (min p1 p2),
                   first_candle_close := some p2 }
    emptyOM 34199 { symbol := some cfg.symbol, ltp := some p3, close := none } p3
    33300 (max p1 p2) (min p1 p2) rfl h3 hpos rfl rfl rfl (by norm_num)
  have e4 := bdOnTick2_secondOpen cfg
    { bdFresh with first_candle_start := some 33300,
                   first_candle_high := some (max (max p1 p2) p3),
                   first_candle_low := some (min (min p1 p2) p3),
                   first_candle_close := some p3 }
    emptyOM 34201 { symbol := some cfg.symbol, ltp := some p4, close := none } p4
    33300 (max (max p1 p2) p3) (min (min p1 p2) p3) rfl h4 hpos rfl rfl rfl
    (by norm_num) rfl (not_le.mpr hmove)
  have hrun : bdScenario cfg p1 p2 p3 p4 =
      ({ bdFresh with first_candle_start := some 33300,
                      first_candle_high := some (max (max p1 p2) p3),
                      first_candle_low := some (min (min p1 p2) p3),
                      first_candle_close := some p3,
                      second_candle_start := some (33300 + 900),
                      second_candle_high := some p4, second_candle_low := some p4,
                      second_candle_close := some p4 }, emptyOM) := by
    simp only [bdScenario, bdRun, List.foldl, e1, e2, e3, e4]
  refine ⟨by rw [hrun], by rw [hrun], by rw [hrun], by rw [hrun],
    by rw [hrun], by rw [hrun], by rw [hrun], ?_, ?_, ?_⟩
  · intro t
    unfold floor15
    omega
  · intro st om ts m p b h l hm hp hpos' hf hh hl hts
    rw [bdOnTick2_firstUpdate cfg st om ts m p b h l hm hp hpos' hf hh hl hts]
    exact ⟨hf, rfl⟩
  · intro st om ts m p b h l hm hp hpos' hf hh hl hts hsecond hmv
    rw [bdOnTick2_secondOpen cfg st om ts m p b h l hm hp hpos' hf hh hl hts
      hsecond (not_le.mpr hmv)]
    exact ⟨hh, rfl⟩

/-- Witness for C9 (amended) at concrete prices 100, 100.5, 100.2, 101
(range 0.5% < 1%): the new bucket opens at 09:30:00. -/
theorem candle_bucket_scenario_witness :
    (bdScenario ⟨"NSE:X", "Intraday", "Quantity", 1⟩
        100 (201/2) (501/5) 101).1.second_candle_start = some 34200 :=
  (candle_bucket_scenario ⟨"NSE:X", "Intraday", "Quantity", 1⟩
    100 (201/2) (501/5) 101 (by norm_num) (by norm_num) (by norm_num)
    (by norm_num)
    (by norm_num [max_def, min_def])).2.2.2.2.1

/-- Counterexample for C9 as stated: with prices 100, 102, 101, 101 the
first bucket's range is 2% ≥ 1%, so on the 09:30:01 tick the strategy
resets instead of opening a bucket at 09:30:00 — afterwards no bucket is
open at all. -/
theorem candle_bucket_counterexample :
    (bdScenario ⟨"NSE:X", "Intraday", "Quantity", 1⟩
        100 102 101 101).1.second_candle_start = none ∧
    (bdScenario ⟨"NSE:X", "Intraday", "Quantity", 1⟩
        100 102 101 101).1.first_candle_start = none := by
  have hpos : get_open_position emptyOM "NSE:X" = none := rfl
  have hfl : floor15 33305 = 33300 := by norm_num [floor15]
  have e1 := bdOnTick2_init ⟨"NSE:X", "Intraday", "Quantity", 1⟩ bdFresh emptyOM
    33305 { symbol := some "NSE:X", ltp := some 100, close := none } 100 rfl
    (by norm_num) hpos rfl
  rw [hfl] at e1
  have e2 := bdOnTick2_firstUpdate ⟨"NSE:X", "Intraday", "Quantity", 1⟩
    { bdFresh with first_candle_start := some 33300, first_candle_high := some 100,
                   first_candle_low := some 100, first_candle_close := some 100 }
    emptyOM 33700 { symbol := some "NSE:X", ltp := some 102, close := none } 102
    33300 100 100 rfl (by norm_num) hpos rfl rfl rfl (by norm_num)
  rw [show max (100 : ℚ) 102 = 102 by norm_num [max_def],
      show min (100 : ℚ) 102 = 100 by norm_num [min_def]] at e2
  have e3 := bdOnTick2_firstUpdate ⟨"NSE:X", "Intraday", "Quantity", 1⟩
    { bdFresh with first_candle_start := some 33300, first_candle_high := some 102,
                   first_candle_low := some 100, first_candle_close := some 102 }
    emptyOM 34199 { symbol := some "NSE:X", ltp := some 101, close := none } 101
    33300 102 100 rfl (by norm_num) hpos rfl rfl rfl (by norm_num)
  rw [show max (102 : ℚ) 101 = 102 by norm_num [max_def],
      show min (100 : ℚ) 101 = 100 by norm_num [min_def]] at e3
  have e4 := bdOnTick2_resetHighMove ⟨"NSE:X", "Intraday", "Quantity", 1⟩
    { bdFresh with first_candle_start := some 33300, first_candle_high := some 102,
                   first_candle_low := some 100, first_candle_close := some 101 }
    emptyOM 34201 { symbol := some "NSE:X", ltp := some 101, close := none } 101
    33300 102 100 rfl (by norm_num) hpos rfl rfl rfl (by norm_num) rfl rfl
    (by norm_num)
  have hrun : bdScenario ⟨"NSE:X", "Intraday", "Quantity", 1⟩ 100 102 101 101 =
      ({ bdFresh with first_candle_start := none, first_candle_high := none,
                      first_candle_low := none, first_candle_close := none,
                      second_candle_start := none, under_entry_price := none },
       emptyOM) := by
    simp only [bdScenario, bdRun, List.foldl, e1, e2, e3, e4]
  exact ⟨by rw [hrun], by rw [hrun]⟩

end Algo
